import Mathlib

/-!
Shallow embedding of the error-handling middleware
(src/app/middleware/errorHandler.js) and the socket room handler
(src/app/config/socket.config.js) of the E-commerce-2022-server repository.

Responses and continuation calls are modelled as an ordered trace of
events, one event per observable side effect, in the order the
JavaScript code performs them.
-/

/-- A small JSON value model, sufficient for the bodies these middleware
emit.  Object fields are kept in insertion order, matching the order in
which JavaScript enumerates string keys. -/
inductive Json where
  | str : String → Json
  | num : Nat → Json
  | obj : List (String × Json) → Json

/-- Decidable equality for the nested `Json` type (the derive handler does
not support the nesting through `List`). -/
def Json.decEq : (a b : Json) → Decidable (a = b)
  | .str a, .str b =>
    if h : a = b then .isTrue (by rw [h]) else .isFalse (by simp [h])
  | .num a, .num b =>
    if h : a = b then .isTrue (by rw [h]) else .isFalse (by simp [h])
  | .str _, .num _ => .isFalse (fun h => Json.noConfusion h)
  | .str _, .obj _ => .isFalse (fun h => Json.noConfusion h)
  | .num _, .str _ => .isFalse (fun h => Json.noConfusion h)
  | .num _, .obj _ => .isFalse (fun h => Json.noConfusion h)
  | .obj _, .str _ => .isFalse (fun h => Json.noConfusion h)
  | .obj _, .num _ => .isFalse (fun h => Json.noConfusion h)
  | .obj [], .obj [] => .isTrue rfl
  | .obj [], .obj (_ :: _) => .isFalse (by intro h; injection h with h1; exact List.noConfusion h1)
  | .obj (_ :: _), .obj [] => .isFalse (by intro h; injection h with h1; exact List.noConfusion h1)
  | .obj ((k1, v1) :: t1), .obj ((k2, v2) :: t2) =>
    if hk : k1 = k2 then
      match Json.decEq v1 v2 with
      | .isTrue hv =>
        match Json.decEq (.obj t1) (.obj t2) with
        | .isTrue ht => .isTrue (by
            subst hk; subst hv
            have h2 : t1 = t2 := by injection ht
            rw [h2])
        | .isFalse ht => .isFalse (by
            intro h
            apply ht
            injection h with h1
            injection h1 with _ h3
            rw [h3])
      | .isFalse hv => .isFalse (by simp [hv])
    else
      .isFalse (by simp [hk])

instance : DecidableEq Json := Json.decEq

/-- Model of a JavaScript error value as the pipeline sees it: a message,
an optional `status` field, an optional `stack` string and an optional
field-validation mapping (`err.errors`), kept in key insertion order with
each entry modelling the `.message` field of the per-field error object.
`none` for `status` or `stack` models an absent (or otherwise falsy)
JavaScript value, so that the `x || fallback` idiom becomes `Option.getD`;
`errors = some []` models a present but empty (truthy) mapping object. -/
structure ErrorObj where
  message : String
  status : Option Nat
  stack : Option String
  errors : Option (List (String × String))
deriving DecidableEq

/-- One observable side effect of a middleware invocation. -/
inductive Event where
  | setStatus : Nat → Event
  | jsonBody : Json → Event
  | sendBody : Json → Event
  | redirect : String → Event
  | next : Option ErrorObj → Event
deriving DecidableEq

/-- The request data the embedded middleware read: the original URL of the
request (`req.originalUrl`). -/
structure Req where
  originalUrl : String
deriving DecidableEq

-- Constants taken by the source from the http-status-codes package.
namespace StatusCodes

def UNPROCESSABLE_ENTITY : Nat := 422

end StatusCodes

-- Constants taken by the source from the http-status-codes package.
namespace ReasonPhrases

def UNPROCESSABLE_ENTITY : String := "Unprocessable Entity"

end ReasonPhrases

/-- Models `new Error(msg)`: only the message is set.  The stack trace that
the JavaScript runtime captures is environment dependent and not modelled. -/
def mkError (msg : String) : ErrorObj :=
  { message := msg, status := none, stack := none, errors := none }

/-- Embedding of `notFound` from src/app/middleware/errorHandler.js:
builds `new Error("Not found - " ++ req.originalUrl)`, performs
`res.status(404)`, calls `next(error)`, then `res.redirect("back")`
(Express resolves the target "back" to the Referrer header, i.e. the
referring page). -/
def notFound (req : Req) : List Event :=
  let error := mkError ("Not found - " ++ req.originalUrl)
  [Event.setStatus 404, Event.next (some error), Event.redirect "back"]

/-- Embedding of `flashValidationErrors`: when `err.errors` is falsy it
returns `next(err)`; otherwise it iterates the keys of the mapping in
insertion order (the order `Object.keys` yields for string keys) and for
each performs `res.status(422).json({status, error})`.  Note when the
mapping is present it never calls `next`. -/
def flashValidationErrors (err : ErrorObj) : List Event :=
  match err.errors with
  | none => [Event.next (some err)]
  | some errs =>
    (errs.map (fun kv =>
      [Event.setStatus StatusCodes.UNPROCESSABLE_ENTITY,
       Event.jsonBody (Json.obj
         [("status", Json.str ReasonPhrases.UNPROCESSABLE_ENTITY),
          ("error", Json.str kv.2)])])).flatten

/-- JSON serialization of an error value, as `res.json` performs on a plain
object: fields appear in declaration order and absent (`undefined`) fields
are omitted.  Each entry of the validation mapping serializes as an object
with a `message` field, matching the shape the pipeline reads from it. -/
def errToJson (err : ErrorObj) : Json :=
  Json.obj
    ([("message", Json.str err.message)] ++
     (match err.status with
      | some n => [("status", Json.num n)]
      | none => []) ++
     (match err.stack with
      | some s => [("stack", Json.str s)]
      | none => []) ++
     (match err.errors with
      | some l =>
        [("errors", Json.obj (l.map (fun kv =>
           (kv.1, Json.obj [("message", Json.str kv.2)]))))]
      | none => []))

/-- Embedding of `productionErrors`: performs
`res.status(500).json({ error: err })` and then calls `next()`. -/
def productionErrors (err : ErrorObj) : List Event :=
  [Event.setStatus 500,
   Event.jsonBody (Json.obj [("error", errToJson err)]),
   Event.next none]

/-- Character class of the regex `[a-z_-\d]` under the `i` flag: in a
non-unicode JavaScript regex the range `_-\d` is parsed as the literal
characters underscore, hyphen and the digit class, so the class is
letters (both cases via `i`), digits, underscore and hyphen. -/
def isWordChar (c : Char) : Bool :=
  c.isAlpha || c.isDigit || c == '_' || c == '-'

/-- The unescaped `.` of the regex: any character except a line
terminator. -/
def isDotChar (c : Char) : Bool :=
  c != '\n' && c != '\r' && c.val != 0x2028 && c.val != 0x2029

/-- Matches the regex tail `js:\d+:\d+` (case-insensitive `js` under the
`i` flag) at the head of the list, returning the consumed characters and
the remainder.  Both `\d+` runs are greedy; since a digit run is followed
by a non-digit in the pattern, greediness here needs no backtracking. -/
def matchTail : List Char → Option (List Char × List Char)
  | j :: s :: ':' :: rest =>
    if (j == 'j' || j == 'J') && (s == 's' || s == 'S') then
      match rest.span (fun c => c.isDigit) with
      | (d1, r1) =>
        match r1 with
        | ':' :: r2 =>
          match r2.span (fun c => c.isDigit) with
          | (d2, r3) =>
            if d1.isEmpty || d2.isEmpty then none
            else some (j :: s :: ':' :: (d1 ++ ':' :: d2), r3)
        | _ => none
    else none
  | _ => none

/-- Backtracking over the `[a-z_-\d]+` run: try a run of length `k`
(greedy, longest first), then one separator character accepted by `sep`,
then the `js:\d+:\d+` tail; on failure retry with a shorter run, as the
regex engine does. -/
def tryRun (sep : Char → Bool) : Nat → List Char → Option (List Char × List Char)
  | 0, _ => none
  | k + 1, l =>
    match l.drop (k + 1) with
    | c :: rest =>
      if sep c then
        match matchTail rest with
        | some (t, r) => some (l.take (k + 1) ++ c :: t, r)
        | none => tryRun sep k l
      else tryRun sep k l
    | [] => tryRun sep k l

/-- Attempts a whole-pattern match anchored at the head of `l`: a maximal
word-character run bounds the `[a-z_-\d]+` part, then `tryRun` backtracks
from the longest candidate down. -/
def matchFrom (sep : Char → Bool) (l : List Char) : Option (List Char × List Char) :=
  tryRun sep (l.takeWhile isWordChar).length l

/-- Global replace, as `String.prototype.replace` with the `g` flag: scan
left to right; at each position attempt a match; on success emit the match
wrapped in `<mark>`/`</mark>` and resume after it, otherwise copy one
character and advance.  Every match consumes at least one character, so
the length of the input is enough fuel. -/
def replaceLocs (sep : Char → Bool) : Nat → List Char → List Char
  | _, [] => []
  | 0, l => l
  | fuel + 1, c :: l =>
    match matchFrom sep (c :: l) with
    | some (m, rest) =>
      "<mark>".data ++ (m ++ ("</mark>".data ++ replaceLocs sep fuel rest))
    | none => c :: replaceLocs sep fuel l

/-- Embedding of the source expression
`err.stack.replace(/[a-z_-\d]+.js:\d+:\d+/gi, "<mark>$&</mark>")`: the
dot in the pattern is unescaped, so any non-line-terminator character is
accepted between the word run and `js:line:column`. -/
def highlight (s : String) : String :=
  String.mk (replaceLocs isDotChar s.data.length s.data)

/-- Formalization of the claim wording, for comparison with `highlight`:
wraps exactly the `file.js:line:column` occurrences, i.e. the separator
between the file name and `js` must be a literal dot. -/
def specHighlight (s : String) : String :=
  String.mk (replaceLocs (fun c => c == '.') s.data.length s.data)

/-- The two content types `res.format` dispatches on in the source,
selected by the request's Accept header. -/
inductive Accept where
  | html
  | json
deriving DecidableEq

/-- The `errorDetails` object of `developmentErrors`: message, the raw
`err.status` (omitted when absent, as an undefined field does not
serialize) and the highlighted stack, where the stack was first defaulted
by `err.stack = err.stack || ""`. -/
def errorDetails (err : ErrorObj) : Json :=
  Json.obj
    ([("message", Json.str err.message)] ++
     (match err.status with
      | some n => [("status", Json.num n)]
      | none => []) ++
     [("stackHighlighted", Json.str (highlight (err.stack.getD "")))])

/-- Embedding of `developmentErrors`: builds `errorDetails`, performs
`res.status(err.status || 500)`, then `res.format` runs the handler for
the negotiated type — for `text/html` it performs
`res.send({ error: errorDetails })`, for `application/json` it performs
`res.json(errorDetails)` (not nested under an `error` key) — and finally
calls `next()`. -/
def developmentErrors (err : ErrorObj) (accept : Accept) : List Event :=
  [Event.setStatus (err.status.getD 500)] ++
  (match accept with
   | .html => [Event.sendBody (Json.obj [("error", errorDetails err)])]
   | .json => [Event.jsonBody (errorDetails err)]) ++
  [Event.next none]

/-- The possible outcomes of invoking a route handler `fn(req, res, next)`,
as the `catchErrors` wrapper can observe them: return a plain value, return
a promise that fulfills, return a promise that rejects, or throw during the
synchronous part of the call. -/
inductive HandlerResult where
  | value : Json → HandlerResult
  | promiseOk : Json → HandlerResult
  | promiseErr : ErrorObj → HandlerResult
  | throwSync : ErrorObj → HandlerResult
deriving DecidableEq

/-- What the function returned by `catchErrors(fn)` does on one
invocation: return normally, forward an error to the continuation `next`,
or let an exception escape past the wrapper to its caller. -/
inductive WrappedOutcome where
  | ret : Json → WrappedOutcome
  | nextCalled : ErrorObj → WrappedOutcome
  | escaped : ErrorObj → WrappedOutcome
deriving DecidableEq

/-- Embedding of `catchErrors`: `const resp = fn(req, res, next)` runs with
no try/catch around it, so a synchronous throw escapes the wrapper;
`if (resp instanceof Promise) return resp.catch(next)` forwards a
rejection to `next` (a fulfilled promise passes through, modelled by its
value); any other return value is returned unchanged. -/
def catchErrors (fn : HandlerResult) : WrappedOutcome :=
  match fn with
  | .value v => .ret v
  | .promiseOk v => .ret v
  | .promiseErr e => .nextCalled e
  | .throwSync e => .escaped e

/-- A live connection: its opaque identifier and the set of rooms it is a
member of, kept as a duplicate-free list. -/
structure Socket where
  id : String
  rooms : List String
deriving DecidableEq

/-- Modelled from the spec: `socket.join` is the transport layer's
(socket.io) room bookkeeping, which is not part of src/.  Per the spec a
Group (Room) is a named set of Connections, created implicitly on first
join, so joining adds the room when it is not already present. -/
def Socket.join (s : Socket) (g : String) : Socket :=
  { s with rooms := if g ∈ s.rooms then s.rooms else g :: s.rooms }

/-- Modelled from the spec: `socket.leave` removes the Connection from the
named Group; removing from a Group the Connection is not in is a no-op. -/
def Socket.leave (s : Socket) (g : String) : Socket :=
  { s with rooms := s.rooms.filter (fun r => r != g) }

/-- The event alphabet of src/app/config/socket.config.js. -/
inductive SocketEvent where
  | joinRoom : String → SocketEvent
  | outRoom : String → SocketEvent
  | disconnect : SocketEvent
deriving DecidableEq

/-- Embedding of `SocketServer` from src/app/config/socket.config.js: the
listener registered for each event name, as a step function from an event
to the updated socket state together with the emitted log lines
(`console.log(socket.id + ' disconnected')` on disconnect). -/
def SocketServer (ev : SocketEvent) (socket : Socket) : Socket × List String :=
  match ev with
  | .joinRoom id => (socket.join id, [])
  | .outRoom id => (socket.leave id, [])
  | .disconnect => (socket, [socket.id ++ " disconnected"])

/-- The response bodies a trace emits, in order (both `res.json` and
`res.send` bodies). -/
def emittedBodies (evs : List Event) : List Json :=
  evs.filterMap (fun e =>
    match e with
    | Event.jsonBody b => some b
    | Event.sendBody b => some b
    | _ => none)

/-- Helper for the development-stage stack highlighting: a string with no
word character contains no match of the pattern (which begins with a
nonempty word-character run), so the replacement leaves it unchanged. -/
theorem replaceLocs_no_word (sep : Char → Bool) :
    ∀ (fuel : Nat) (l : List Char), l.all (fun c => !isWordChar c) = true →
      replaceLocs sep fuel l = l := by
  intro fuel
  induction fuel with
  | zero => intro l _; cases l <;> rfl
  | succ n ih =>
    intro l hl
    cases l with
    | nil => rfl
    | cons c t =>
      have hc : isWordChar c = false := by
        have := List.all_eq_true.mp hl c (by simp)
        simpa using this
      have ht : t.all (fun c => !isWordChar c) = true := by
        refine List.all_eq_true.mpr (fun x hx => ?_)
        exact List.all_eq_true.mp hl x (by simp [hx])
      have hm : matchFrom sep (c :: t) = none := by
        unfold matchFrom
        simp [List.takeWhile, hc, tryRun]
      unfold replaceLocs
      rw [hm, ih t ht]

/-- C1: the Not-Found stage builds an error whose message is
"Not found - " followed by the requested path, sets the pending status to
404, forwards the error to the continuation, and only afterwards issues a
redirect to the referring page (Express target "back"). -/
theorem notFound_spec :
    ∀ (req : Req),
      notFound req =
        [Event.setStatus 404,
         Event.next (some
           { message := "Not found - " ++ req.originalUrl,
             status := none, stack := none, errors := none }),
         Event.redirect "back"] := by
  intro req
  rfl

/-- C2: with a validation mapping present, the stage emits one 422 JSON
response per field in key order, with body status "Unprocessable Entity"
and error the field's message; in particular the mapping with email
"invalid" and age "required" yields a body with error "invalid" and then
one with error "required". -/
theorem flashValidationErrors_each_field :
    ∀ (m : String) (st : Option Nat) (sk : Option String)
      (l : List (String × String)),
      flashValidationErrors
          { message := m, status := st, stack := sk, errors := some l } =
        (l.map (fun kv =>
          [Event.setStatus 422,
           Event.jsonBody (Json.obj
             [("status", Json.str "Unprocessable Entity"),
              ("error", Json.str kv.2)])])).flatten
      ∧ flashValidationErrors
          { message := m, status := st, stack := sk,
            errors := some [("email", "invalid"), ("age", "required")] } =
        [Event.setStatus 422,
         Event.jsonBody (Json.obj
           [("status", Json.str "Unprocessable Entity"),
            ("error", Json.str "invalid")]),
         Event.setStatus 422,
         Event.jsonBody (Json.obj
           [("status", Json.str "Unprocessable Entity"),
            ("error", Json.str "required")])] := by
  intro m st sk l
  exact ⟨rfl, rfl⟩

/-- C3 counterexample: for a concrete error in the Development-Error stage
with a JSON-preferring request, the emitted body is the detail object
itself, which differs from the detail object nested under an "error" key
as the claim states for both content types. -/
theorem developmentErrors_json_not_nested_cex :
    developmentErrors
        { message := "boom", status := some 418, stack := some "",
          errors := none } Accept.json =
      [Event.setStatus 418,
       Event.jsonBody (Json.obj
         [("message", Json.str "boom"), ("status", Json.num 418),
          ("stackHighlighted", Json.str "")]),
       Event.next none]
    ∧ Json.obj
        [("message", Json.str "boom"), ("status", Json.num 418),
         ("stackHighlighted", Json.str "")] ≠
      Json.obj
        [("error", Json.obj
          [("message", Json.str "boom"), ("status", Json.num 418),
           ("stackHighlighted", Json.str "")])] := by
  refine ⟨rfl, ?_⟩
  simp

/-- C3 amended: the Development-Error stage nests the detail object under
an "error" key only for HTML-preferring requests; for JSON-preferring
requests it emits the detail object itself as the body. -/
theorem developmentErrors_body_nesting :
    ∀ (err : ErrorObj),
      emittedBodies (developmentErrors err Accept.html) =
        [Json.obj [("error", errorDetails err)]]
      ∧ emittedBodies (developmentErrors err Accept.json) =
        [errorDetails err] := by
  intro err
  exact ⟨rfl, rfl⟩

/-- C4 counterexample: a synchronous throw during the handler invocation
escapes the `catchErrors` wrapper (there is no try/catch around the call),
and in particular is not forwarded to the continuation. -/
theorem catchErrors_sync_throw_cex :
    catchErrors (HandlerResult.throwSync (mkError "boom")) =
      WrappedOutcome.escaped (mkError "boom")
    ∧ catchErrors (HandlerResult.throwSync (mkError "boom")) ≠
      WrappedOutcome.nextCalled (mkError "boom") := by
  exact ⟨rfl, by decide⟩

/-- C4 amended: the wrapper forwards an asynchronous rejection of the
returned promise to the continuation; a synchronous throw is not caught by
the wrapper and escapes to its caller (it is not swallowed either way);
other return values pass through unchanged. -/
theorem catchErrors_propagation :
    ∀ (e : ErrorObj) (v : Json),
      catchErrors (HandlerResult.promiseErr e) = WrappedOutcome.nextCalled e
      ∧ catchErrors (HandlerResult.throwSync e) = WrappedOutcome.escaped e
      ∧ catchErrors (HandlerResult.value v) = WrappedOutcome.ret v
      ∧ catchErrors (HandlerResult.promiseOk v) = WrappedOutcome.ret v := by
  intro e v
  exact ⟨rfl, rfl, rfl, rfl⟩

/-- C5: the Production-Error stage sets status 500, emits the raw error
object as JSON under an "error" key, then calls the continuation; for the
error with message "boom" and status 418 the body is exactly the object
with error mapped to that raw object. -/
theorem productionErrors_spec :
    ∀ (err : ErrorObj),
      productionErrors err =
        [Event.setStatus 500,
         Event.jsonBody (Json.obj [("error", errToJson err)]),
         Event.next none]
      ∧ productionErrors
          { message := "boom", status := some 418, stack := none,
            errors := none } =
        [Event.setStatus 500,
         Event.jsonBody (Json.obj
           [("error", Json.obj
             [("message", Json.str "boom"), ("status", Json.num 418)])]),
         Event.next none] := by
  intro err
  exact ⟨rfl, rfl⟩

/-- C6: the Development-Error stage first sets the response status to the
declared error status (500 when absent), emits exactly one response body,
and calls the continuation last in every case; in particular the error
with status 418 under an HTML-preferring request gets status 418. -/
theorem developmentErrors_status_and_next :
    ∀ (err : ErrorObj) (accept : Accept),
      (developmentErrors err accept).head? =
        some (Event.setStatus (err.status.getD 500))
      ∧ (developmentErrors err accept).getLast? = some (Event.next none)
      ∧ (emittedBodies (developmentErrors err accept)).length = 1
      ∧ (developmentErrors
          { message := "boom", status := some 418, stack := some "",
            errors := none } Accept.html).head? =
        some (Event.setStatus 418) := by
  intro err accept
  cases accept <;> exact ⟨rfl, rfl, rfl, rfl⟩

/-- C7 counterexample: the pattern's dot is unescaped, so on the stack
"a#js:1:2", which contains no file.js:line:column occurrence, the stage
still wraps the whole string in mark tags instead of leaving every
character unchanged as the claim (formalized by `specHighlight`, which
requires the literal dot) states. -/
theorem stackHighlighted_loose_dot_cex :
    developmentErrors
        { message := "boom", status := some 418, stack := some "a#js:1:2",
          errors := none } Accept.json =
      [Event.setStatus 418,
       Event.jsonBody (Json.obj
         [("message", Json.str "boom"), ("status", Json.num 418),
          ("stackHighlighted", Json.str "<mark>a#js:1:2</mark>")]),
       Event.next none]
    ∧ specHighlight "a#js:1:2" = "a#js:1:2"
    ∧ ("<mark>a#js:1:2</mark>" : String) ≠ "a#js:1:2" := by
  exact ⟨rfl, rfl, by decide⟩

/-- C7 amended: the stackHighlighted field is the stack with every
occurrence of a word-character run, one arbitrary non-line-terminator
character in place of the literal dot, and js:digits:digits wrapped in
mark tags; genuine file.js:line:column occurrences are wrapped with the
surrounding characters unchanged, and a stack with no word character at
all is left entirely unchanged. -/
theorem stackHighlighted_spec :
    ∀ (err : ErrorObj),
      errorDetails err = Json.obj
        ([("message", Json.str err.message)] ++
         (match err.status with
          | some n => [("status", Json.num n)]
          | none => []) ++
         [("stackHighlighted",
           Json.str (highlight (err.stack.getD "")))])
      ∧ highlight "Error: boom\n    at foo (/srv/app/app.js:10:5)" =
          "Error: boom\n    at foo (/srv/app/<mark>app.js:10:5</mark>)"
      ∧ highlight "a#js:1:2" = "<mark>a#js:1:2</mark>"
      ∧ (∀ (s : String), s.data.all (fun c => !isWordChar c) = true →
          highlight s = s) := by
  intro err
  refine ⟨rfl, rfl, rfl, fun s hs => ?_⟩
  show String.mk (replaceLocs isDotChar s.data.length s.data) = s
  rw [replaceLocs_no_word isDotChar s.data.length s.data hs]

/-- C7 witness: the general unchanged-when-no-word-character part of the
amended theorem applied at the concrete stack "::(::)". -/
theorem stackHighlighted_spec_witness :
    ("::(::)" : String).data.all (fun c => !isWordChar c) = true
    ∧ highlight "::(::)" = "::(::)" :=
  ⟨by decide,
   (stackHighlighted_spec
     { message := "", status := none, stack := none,
       errors := none }).2.2.2 "::(::)" (by decide)⟩

/-- C8: with no validation mapping on the error, the stage emits nothing
and forwards the very same error to the continuation. -/
theorem flashValidationErrors_no_mapping :
    ∀ (m : String) (st : Option Nat) (sk : Option String),
      flashValidationErrors
          { message := m, status := st, stack := sk, errors := none } =
        [Event.next (some
          { message := m, status := st, stack := sk, errors := none })] := by
  intro m st sk
  rfl

/-- C9: after the handler processes joinRoom g the connection is a member
of group g, and after a subsequent outRoom g it is not. -/
theorem joinRoom_outRoom_membership :
    ∀ (s : Socket) (g : String),
      g ∈ ((SocketServer (SocketEvent.joinRoom g) s).1).rooms
      ∧ g ∉ ((SocketServer (SocketEvent.outRoom g)
              ((SocketServer (SocketEvent.joinRoom g) s).1)).1).rooms := by
  intro s g
  constructor
  · show g ∈ (s.join g).rooms
    unfold Socket.join
    by_cases h : g ∈ s.rooms <;> simp [h]
  · show g ∉ ((s.join g).leave g).rooms
    unfold Socket.leave
    simp [List.mem_filter]

/-- C10: with a present but empty validation mapping the stage emits no
response and never calls the continuation: its trace is empty. -/
theorem flashValidationErrors_empty_mapping :
    ∀ (m : String) (st : Option Nat) (sk : Option String),
      flashValidationErrors
          { message := m, status := st, stack := sk, errors := some [] } =
        ([] : List Event) := by
  intro m st sk
  rfl
